import Mathlib

/-
Verification of the run-route-planner API route handler.

The development shallowly embeds the TypeScript source of the route handler
(`app/api/route/route.ts`): its data model (Mapbox directions responses and
the handler's `RouteStep` records), the instruction simplifier, the
smoothness and overlap scoring penalties, the bearing-trial / leg-bisection
search loop of the `GET` handler, and the query-parameter coercion.

Modelling conventions:
* JavaScript numbers are modelled as exact rationals (`ℚ`); floating-point
  rounding is idealised away.
* The haversine helper `distanceMeters` is transcendental (sin/cos/atan2),
  so functions that consume it are parameterised by an abstract distance
  function `dist : Coord → Coord → ℚ`; nothing proved here depends on the
  concrete metric beyond what is stated as a hypothesis.
* The external Mapbox directions service is modelled as an oracle giving the
  response to each call of the search loop; the waypoint geometry
  (`destinationPoint`, random bearings) only determines the coordinates sent
  to that service, so it is absorbed into the oracle.
* `null`/`undefined` become `Option`; a thrown fetch error becomes
  `Except.error`.
-/

/-- A longitude/latitude pair, as in the GeoJSON coordinate arrays. -/
def Coord : Type := ℚ × ℚ

instance : DecidableEq Coord := by
  unfold Coord
  infer_instance

/-- The maneuver object of a Mapbox step (all fields optional). -/
structure MapboxManeuver where
  instruction : Option String
  location : Option Coord
  type : Option String
  modifier : Option String
deriving DecidableEq

/-- One raw step of a Mapbox directions leg. -/
structure MapboxStep where
  name : Option String
  distance : Option ℚ
  duration : Option ℚ
  maneuver : Option MapboxManeuver
deriving DecidableEq

/-- One leg of a Mapbox route (its step list is optional). -/
structure MapboxLeg where
  steps : Option (List MapboxStep)
deriving DecidableEq

/-- A Mapbox route: total distance, polyline coordinates, optional legs. -/
structure MapboxRoute where
  distance : ℚ
  coordinates : List Coord
  legs : Option (List MapboxLeg)
deriving DecidableEq

/-- The handler's `RouteStep` record (the shape of raw and final steps). -/
structure RouteStep where
  instruction : String
  distance_m : ℚ
  duration_s : ℚ
  location : Option Coord
  type : Option String
  modifier : Option String
  name : Option String
deriving DecidableEq

/-- `RUN_PACE_MIN_PER_KM = 6`, the assumed running pace. -/
def RUN_PACE_MIN_PER_KM : ℚ := 6

/-- `metersToKm(m) = m / 1000`. -/
def metersToKm (m : ℚ) : ℚ := m / 1000

/-- Characters with surrounding whitespace removed.  Models
`String.prototype.trim` (restricted to ASCII whitespace, the only kind the
claims exercise). -/
def trimChars (cs : List Char) : List Char :=
  ((cs.dropWhile Char.isWhitespace).reverse.dropWhile Char.isWhitespace).reverse

/-- `s.trim()` on strings, via `trimChars`. -/
def trimStr (s : String) : String := String.mk (trimChars s.data)

/-- `s.toLowerCase()` on strings (ASCII case mapping, the only kind the
claims exercise). -/
def lowerStr (s : String) : String := String.mk (s.data.map Char.toLower)

/-- Whether `pat` is a prefix of the character list `s`. -/
def charsStartWith (pat s : List Char) : Bool :=
  match pat, s with
  | [], _ => true
  | _ :: _, [] => false
  | c :: cs, d :: ds => decide (c = d) && charsStartWith cs ds

/-- Whether `pat` occurs contiguously inside the character list `s`. -/
def charsContain (s pat : List Char) : Bool :=
  charsStartWith pat s ||
  match s with
  | [] => false
  | _ :: rest => charsContain rest pat

/-- JavaScript `s.includes(pat)`: `pat` occurs as a contiguous substring. -/
def strContains (s pat : String) : Bool := charsContain s.data pat.data

/-- JavaScript truthiness of a `string | null` value: `null` and `""` are falsy. -/
def optTruthy (s : Option String) : Bool :=
  match s with
  | none => false
  | some str => decide (str ≠ "")

/-- The generic path-name terms listed in `isGenericPathName`. -/
def genericTerms : List String :=
  ["walkway", "crosswalk", "sidewalk", "path", "trail", "footway",
   "pedestrian", "steps", "stair", "bridge"]

/-- `isGenericPathName`: a missing/blank name is generic, otherwise the
trimmed lower-cased name is generic when it contains one of the fixed terms. -/
def isGenericPathName (name : Option String) : Bool :=
  match name with
  | none => true
  | some n =>
    let normalized := lowerStr (trimStr n)
    if normalized = "" then true
    else genericTerms.any (fun term => strContains normalized term)

/-- `toSentence`: trim, default to "Continue.", keep terminal punctuation,
otherwise append a period. -/
def toSentence (text : String) : String :=
  let trimmed := trimStr text
  if trimmed = "" then "Continue."
  else
    match trimmed.data.getLast? with
    | some c => if c = '.' ∨ c = '!' ∨ c = '?' then trimmed else trimmed ++ "."
    | none => trimmed ++ "."

/-- The fall-through tail of `formatInstruction` once a specific name is in
hand: append "onto {name}" when the raw text does not already mention it. -/
def formatWithName (nm raw : String) : String :=
  if raw ≠ "" ∧ ¬ (strContains (lowerStr raw) (lowerStr nm) = true) then
    toSentence (raw ++ " onto " ++ nm)
  else toSentence (if raw = "" then "Continue" else raw)

/-- `formatInstruction`: derive the user-facing instruction text of one raw
Mapbox step from its maneuver type/modifier, trimmed name and raw text. -/
def formatInstruction (step : MapboxStep) : String :=
  let maneuverType := step.maneuver.bind (fun m => m.type)
  let modifier := step.maneuver.bind (fun m => m.modifier)
  let stepName :=
    match step.name with
    | none => none
    | some n => if trimStr n = "" then none else some (trimStr n)
  let raw := trimStr ((step.maneuver.bind (fun m => m.instruction)).getD "")
  let hasSpecificName := optTruthy stepName && !(isGenericPathName stepName)
  if maneuverType = some "arrive" then "You have arrived at your destination."
  else
    match stepName, modifier, hasSpecificName with
    | some nm, some md, true =>
      if maneuverType = some "turn" then "Turn " ++ md ++ " onto " ++ nm ++ "."
      else if maneuverType = some "fork" ∨ maneuverType = some "merge" then
        "Keep " ++ md ++ " onto " ++ nm ++ "."
      else if maneuverType = some "depart" then "Head " ++ md ++ " on " ++ nm ++ "."
      else formatWithName nm raw
    | some nm, none, true => formatWithName nm raw
    | _, _, _ => toSentence (if raw = "" then "Continue" else raw)

/-- `isCoreManeuverType`: the fixed list of core maneuver types. -/
def isCoreManeuverType (type : Option String) : Bool :=
  match type with
  | none => false
  | some t =>
    decide (t = "depart") || decide (t = "arrive") || decide (t = "turn") ||
    decide (t = "fork") || decide (t = "merge") || decide (t = "roundabout") ||
    decide (t = "rotary") || decide (t = "roundabout turn") || decide (t = "end of road")

/-- The filter predicate of `simplifyRouteSteps` (its `steps.filter` body),
applied to a step at position `idx` in a list whose last index is `lastIdx`. -/
def keepStep (lastIdx idx : ℕ) (step : RouteStep) : Bool :=
  let isFirst := decide (idx = 0)
  let isLast := decide (idx = lastIdx)
  let isDepart := decide (step.type = some "depart")
  let isArrive := decide (step.type = some "arrive")
  let isCore := isCoreManeuverType step.type
  let hasSpecificName := optTruthy step.name && !(isGenericPathName step.name)
  let hasGenericName := optTruthy step.name && isGenericPathName step.name
  if isFirst || isLast then true
  else if isDepart || isArrive then false
  else if decide (step.distance_m < 8) then false
  else if hasSpecificName && isCore && decide (step.distance_m ≥ 20) then true
  else if hasGenericName && decide (step.distance_m < 140) then false
  else if !hasSpecificName && isCore && decide (step.distance_m < 45) then false
  else if !isCore && decide (step.distance_m < 220) then false
  else true

/-- The first merge condition of the merge pass: same instruction text
(case-insensitively), same maneuver type and same modifier. -/
def sameMergeKey (lastMerged step : RouteStep) : Bool :=
  decide (lowerStr (trimStr lastMerged.instruction) = lowerStr (trimStr step.instruction)) &&
  decide (lastMerged.type = step.type) &&
  decide (lastMerged.modifier = step.modifier)

/-- The left/right direction category read off a modifier, as in the
`prevDir`/`currDir` conditional chains ("left" is checked first). -/
def directionOf (m : Option String) : Option String :=
  match m with
  | none => none
  | some s =>
    if strContains s "left" then some "left"
    else if strContains s "right" then some "right"
    else none

/-- The `isOppositeZigZag` condition of the merge pass. -/
def isOppositeZigZag (previousStep step : RouteStep) : Bool :=
  decide (previousStep.type = some "turn") &&
  decide (step.type = some "turn") &&
  (directionOf previousStep.modifier).isSome &&
  (directionOf step.modifier).isSome &&
  decide (directionOf previousStep.modifier ≠ directionOf step.modifier) &&
  decide (previousStep.distance_m ≤ 70) &&
  decide (step.distance_m ≤ 70) &&
  isGenericPathName previousStep.name &&
  isGenericPathName step.name

/-- The result of folding `step` into `previousStep` in the zig-zag branch:
distance/duration summed, instruction replaced, type/modifier/name cleared. -/
def zigZagMerge (previousStep step : RouteStep) : RouteStep :=
  { previousStep with
    distance_m := previousStep.distance_m + step.distance_m,
    duration_s := previousStep.duration_s + step.duration_s,
    instruction := "Continue straight.",
    type := none, modifier := none, name := none }

/-- The result of folding `step` into `lastMerged` in the duplicate branch:
distance and duration summed, everything else kept. -/
def duplicateMerge (lastMerged step : RouteStep) : RouteStep :=
  { lastMerged with
    distance_m := lastMerged.distance_m + step.distance_m,
    duration_s := lastMerged.duration_s + step.duration_s }

/-- One iteration of the merge loop of `simplifyRouteSteps`: fold `step`
into the last emitted step when a merge condition holds, else emit a copy. -/
def mergeStep (merged : List RouteStep) (step : RouteStep) : List RouteStep :=
  match merged.getLast? with
  | none => merged ++ [step]
  | some lastMerged =>
    if sameMergeKey lastMerged step then
      merged.dropLast ++ [duplicateMerge lastMerged step]
    else if isOppositeZigZag lastMerged step then
      merged.dropLast ++ [zigZagMerge lastMerged step]
    else merged ++ [step]

/-- `simplifyRouteSteps`: identity on ≤ 2 steps, otherwise the indexed
filter stage followed by the left-to-right merge pass. -/
def simplifyRouteSteps (steps : List RouteStep) : List RouteStep :=
  if steps.length ≤ 2 then steps
  else
    let lastIdx := steps.length - 1
    let filtered := ((steps.enum).filter (fun p => keepStep lastIdx p.1 p.2)).map Prod.snd
    filtered.foldl mergeStep []

/-- The turn-likeness test of `getRouteSmoothnessPenaltyKm` on the defaulted
maneuver type string. -/
def isTurnLike (maneuverType : String) : Bool :=
  strContains maneuverType "turn" ||
  decide (maneuverType = "fork") ||
  decide (maneuverType = "roundabout")

/-- Whether a raw step counts as a turn-like maneuver
(`step?.maneuver?.type ?? ""` is turn-like). -/
def stepIsTurnLike (step : MapboxStep) : Bool :=
  isTurnLike (((step.maneuver.bind (fun m => m.type)).getD ""))

/-- Whether a raw step counts as a short turn (`(step?.distance ?? 0) < 45`
among the turn-like steps). -/
def stepIsShortTurn (step : MapboxStep) : Bool :=
  stepIsTurnLike step && decide (step.distance.getD 0 < 45)

/-- The flattened step list `route.legs?.flatMap((leg) => leg.steps || []) ?? []`. -/
def flattenProviderSteps (route : MapboxRoute) : List MapboxStep :=
  (route.legs.getD []).flatMap (fun leg => leg.steps.getD [])

/-- The counting loop of `getRouteSmoothnessPenaltyKm`:
`(shortTurnCount, totalTurnCount)` accumulated over the steps. -/
def smoothnessCounts (steps : List MapboxStep) : ℕ × ℕ :=
  steps.foldl
    (fun acc step =>
      if !stepIsTurnLike step then acc
      else (if decide (step.distance.getD 0 < 45) then acc.1 + 1 else acc.1, acc.2 + 1))
    (0, 0)

/-- `getRouteSmoothnessPenaltyKm`: km-equivalent penalty
`shortTurnCount * 0.12 + totalTurnCount * 0.015`. -/
def getRouteSmoothnessPenaltyKm (route : MapboxRoute) : ℚ :=
  let counts := smoothnessCounts (flattenProviderSteps route)
  (counts.1 : ℚ) * (12 / 100) + (counts.2 : ℚ) * (15 / 1000)

/-- The segment-key precision `0.0002` (about a 20 m grid). -/
def segPrecision : ℚ := 2 / 10000

/-- `snapCoord`: round a coordinate to the precision grid.  The source then
formats the snapped value with `toFixed(5)`; since distinct multiples of
`0.0002` have distinct 5-decimal expansions, only the snapped value matters
for key equality and the formatting is not modelled. -/
def snapCoord (value precision : ℚ) : ℚ := (round (value / precision) : ℚ) * precision

/-- The canonical ordering of the two snapped endpoint keys
(`aKey < bKey ? ... : ...` in the source, on the formatted strings):
lexicographic on the snapped rational pairs. -/
def orderPair (ak bk : Coord) : Coord × Coord :=
  if ak.1 < bk.1 ∨ (ak.1 = bk.1 ∧ ak.2 ≤ bk.2) then (ak, bk) else (bk, ak)

/-- `segmentKey`: the orientation-independent key of a segment, modelled as
the pair of snapped endpoints in canonical order.  The source orders the two
formatted endpoint strings; any fixed total order yields the same key
*equality*, which is all that is consumed downstream, so the lexicographic
order on the snapped rational pairs is used. -/
def segmentKey (a b : Coord) : Coord × Coord :=
  orderPair (snapCoord a.1 segPrecision, snapCoord a.2 segPrecision)
    (snapCoord b.1 segPrecision, snapCoord b.2 segPrecision)

/-- The accumulator of the overlap scan: the set of seen segment keys and the
running total/overlap meter counts. -/
structure OverlapState where
  seen : List (Coord × Coord)
  totalMeters : ℚ
  overlapMeters : ℚ

/-- One iteration of the overlap scan over a consecutive coordinate pair:
skip segments under 5 m, accumulate the total, and accumulate the overlap
when the segment's key was already seen. -/
def overlapScanStep (dist : Coord → Coord → ℚ) (st : OverlapState) (seg : Coord × Coord) :
    OverlapState :=
  let segmentMeters := dist seg.1 seg.2
  if segmentMeters < 5 then st
  else
    let key := segmentKey seg.1 seg.2
    if key ∈ st.seen then
      { st with totalMeters := st.totalMeters + segmentMeters,
                overlapMeters := st.overlapMeters + segmentMeters }
    else
      { st with totalMeters := st.totalMeters + segmentMeters,
                seen := st.seen ++ [key] }

/-- The consecutive segments of a polyline (`coords[i-1], coords[i]`). -/
def polylineSegments (coords : List Coord) : List (Coord × Coord) :=
  coords.zip coords.tail

/-- The overlap penalty of a polyline, parameterised by the distance metric
(the source fixes `dist = distanceMeters`, the haversine formula). -/
def overlapPenaltyOfCoords (dist : Coord → Coord → ℚ) (coords : List Coord) : ℚ :=
  if coords.length < 3 then 0
  else
    let st := (polylineSegments coords).foldl (overlapScanStep dist) ⟨[], 0, 0⟩
    if st.totalMeters ≤ 0 then 0
    else st.overlapMeters / st.totalMeters * (12 / 10)

/-- `getRouteOverlapPenaltyKm` applied to a route's polyline. -/
def getRouteOverlapPenaltyKm (dist : Coord → Coord → ℚ) (route : MapboxRoute) : ℚ :=
  overlapPenaltyOfCoords dist route.coordinates

/-- The record returned by `scoreRoute`. -/
structure ScoreResult where
  routeKm : ℚ
  distanceDiffKm : ℚ
  smoothnessPenaltyKm : ℚ
  overlapPenaltyKm : ℚ
  score : ℚ

/-- `scoreRoute`: distance error plus the two penalties. -/
def scoreRoute (dist : Coord → Coord → ℚ) (route : MapboxRoute) (targetKm : ℚ) : ScoreResult :=
  let routeKm := metersToKm route.distance
  let distanceDiffKm := |routeKm - targetKm|
  let smoothnessPenaltyKm := getRouteSmoothnessPenaltyKm route
  let overlapPenaltyKm := getRouteOverlapPenaltyKm dist route
  { routeKm := routeKm, distanceDiffKm := distanceDiffKm,
    smoothnessPenaltyKm := smoothnessPenaltyKm, overlapPenaltyKm := overlapPenaltyKm,
    score := distanceDiffKm + smoothnessPenaltyKm + overlapPenaltyKm }

/-- The search constants of the `GET` handler. -/
def bearingTries : ℕ := 9

/-- The inner-loop iteration budget (`tuneSteps = 6`). -/
def tuneSteps : ℕ := 6

/-- The convergence tolerance (`toleranceKm = 0.5`). -/
def toleranceKm : ℚ := 1 / 2

/-- The outcome of one `fetchDirections` call: a thrown error (transport
failure, non-success status, or malformed body), a response with no usable
route (`data?.routes?.[0]` missing), or the first route of the response. -/
def CallResult : Type := Except Unit (Option MapboxRoute)

/-- The local control state of one trial's inner loop: the `[low, high]`
bracket, the leg length under evaluation, and whether the loop has exited
(`break` on error or on convergence). -/
structure TrialState where
  low : ℚ
  high : ℚ
  leg : ℚ
  done : Bool
deriving DecidableEq

/-- The initial bracket and leg of a trial:
`low = 0.12 target`, `high = 0.45 target`, `leg = 0.22 target`. -/
def initTrialState (targetKm : ℚ) : TrialState :=
  { low := (12 / 100) * targetKm, high := (45 / 100) * targetKm,
    leg := (22 / 100) * targetKm, done := false }

/-- The request-scoped best-so-far slot: `best = null`, `bestScore = Infinity`
is modelled as both components `none`. -/
structure SearchBest where
  best : Option MapboxRoute
  bestScore : Option ℚ
deriving DecidableEq

/-- `score < bestScore` with `bestScore = Infinity` when `none`. -/
def scoreLt (score : ℚ) (bestScore : Option ℚ) : Bool :=
  match bestScore with
  | none => true
  | some b => decide (score < b)

/-- The bracket/termination update of one inner-loop iteration, as a function
of the call outcome only (the best-so-far slot never feeds back into it):
an error breaks out of the trial; a missing route `continue`s with the state
unchanged; a routed result within tolerance breaks; otherwise the bracket
shrinks or grows around the evaluated leg and the next leg is the midpoint. -/
def ctrlStep (targetKm : ℚ) (st : TrialState) (res : CallResult) : TrialState :=
  if st.done then st
  else
    match res with
    | Except.error _ => { st with done := true }
    | Except.ok none => st
    | Except.ok (some route) =>
      let routeKm := metersToKm route.distance
      if |routeKm - targetKm| ≤ toleranceKm then { st with done := true }
      else if routeKm > targetKm then
        { low := st.low, high := st.leg, leg := (st.low + st.leg) / 2, done := false }
      else
        { low := st.leg, high := st.high, leg := (st.leg + st.high) / 2, done := false }

/-- The best-so-far update of one inner-loop iteration: a routed result on a
live iteration replaces the best when its score is lower. -/
def bestStep (dist : Coord → Coord → ℚ) (targetKm : ℚ) (st : TrialState)
    (acc : SearchBest) (res : CallResult) : SearchBest :=
  if st.done then acc
  else
    match res with
    | Except.error _ => acc
    | Except.ok none => acc
    | Except.ok (some route) =>
      let score := (scoreRoute dist route targetKm).score
      if scoreLt score acc.bestScore then { best := some route, bestScore := some score }
      else acc

/-- One inner-loop iteration of a trial: the oracle is fed the iteration
index and the current leg length, and the control state and the best slot
are both advanced on the outcome. -/
def trialFoldStep (dist : Coord → Coord → ℚ) (targetKm : ℚ)
    (o : ℕ → ℚ → CallResult) (p : TrialState × SearchBest) (s : ℕ) :
    TrialState × SearchBest :=
  let res := o s p.1.leg
  (ctrlStep targetKm p.1 res, bestStep dist targetKm p.1 p.2 res)

/-- One trial of the search: fold the six inner-loop iterations, threading
the request-scoped best slot through.  The oracle abstracts
`fetchDirections` on the candidate loop built from the trial's random
bearings and the evaluated leg. -/
def runTrial (dist : Coord → Coord → ℚ) (targetKm : ℚ)
    (o : ℕ → ℚ → CallResult) (acc : SearchBest) : SearchBest :=
  ((List.range tuneSteps).foldl (trialFoldStep dist targetKm o)
    (initTrialState targetKm, acc)).2

/-- The observation, alongside the control state, of whether a usable route
has been received on a live iteration so far. -/
def capturedFoldStep (targetKm : ℚ) (o : ℕ → ℚ → CallResult)
    (p : TrialState × Bool) (s : ℕ) : TrialState × Bool :=
  let res := o s p.1.leg
  (ctrlStep targetKm p.1 res,
   if p.1.done then p.2 else
     match res with
     | Except.ok (some _) => true
     | _ => p.2)

/-- Whether a trial's inner loop ever receives a usable route on a live
iteration.  The control state never reads the best slot, so this is a
function of the trial's oracle alone. -/
def trialCaptured (targetKm : ℚ) (o : ℕ → ℚ → CallResult) : Bool :=
  ((List.range tuneSteps).foldl (capturedFoldStep targetKm o)
    (initTrialState targetKm, false)).2

/-- The whole search of the `GET` handler: nine independent trials threading
one best-so-far slot; the oracle's first index is the trial number. -/
def runSearch (dist : Coord → Coord → ℚ) (targetKm : ℚ)
    (o : ℕ → ℕ → ℚ → CallResult) : Option MapboxRoute :=
  ((List.range bearingTries).foldl
    (fun acc t => runTrial dist targetKm (o t) acc)
    { best := none, bestScore := none }).best

/-- One raw `RouteStep` built from a provider step in the handler's
`rawSteps` mapping. -/
def toRouteStep (s : MapboxStep) : RouteStep :=
  { instruction := formatInstruction s,
    distance_m := s.distance.getD 0,
    duration_s := s.duration.getD 0,
    location := (s.maneuver.bind (fun m => m.location)),
    type := (s.maneuver.bind (fun m => m.type)),
    modifier := (s.maneuver.bind (fun m => m.modifier)),
    name := s.name }

/-- The handler's `rawSteps` list for the winning route. -/
def rawStepsOf (route : MapboxRoute) : List RouteStep :=
  (route.legs.getD []).flatMap (fun leg => (leg.steps.getD []).map toRouteStep)

/-- The success payload of the handler: polyline, totals, simplified steps. -/
structure ApiResponse where
  coordinates : List Coord
  distance_m : ℚ
  duration_s : ℚ
  steps : List RouteStep
deriving DecidableEq

/-- The response assembly at the end of the handler: the route distance, a
pace-based total duration (`distance_km * RUN_PACE_MIN_PER_KM * 60`), and the
simplified steps. -/
def buildResponse (best : MapboxRoute) : ApiResponse :=
  let distance_m := best.distance
  let distance_km := distance_m / 1000
  { coordinates := best.coordinates,
    distance_m := distance_m,
    duration_s := distance_km * RUN_PACE_MIN_PER_KM * 60,
    steps := simplifyRouteSteps (rawStepsOf best) }

/-- The error outcomes of the handler that the model distinguishes. -/
inductive ApiError where
  | invalidParams
  | noRoute
deriving DecidableEq

/-- The tail of the handler after parameter validation: run the search and
either report the no-route failure or assemble the response. -/
def searchAndRespond (dist : Coord → Coord → ℚ) (targetKm : ℚ)
    (o : ℕ → ℕ → ℚ → CallResult) : Except ApiError ApiResponse :=
  match runSearch dist targetKm o with
  | none => Except.error ApiError.noRoute
  | some best => Except.ok (buildResponse best)

/-- Digits-to-number accumulator for the decimal-literal parser. -/
def digitsVal (ds : List Char) : ℕ :=
  ds.foldl (fun acc c => acc * 10 + (c.toNat - 48)) 0

/-- Parse an unsigned JavaScript decimal literal (digits, optionally a dot
and more digits; at least one digit overall).  Exponents and non-decimal
literal forms of `Number()` are not modelled — no claim depends on them. -/
def parseUnsignedDecimal (cs : List Char) : Option ℚ :=
  let intPart := cs.takeWhile Char.isDigit
  let rest := cs.dropWhile Char.isDigit
  match rest with
  | [] => if intPart.isEmpty then none else some (digitsVal intPart : ℚ)
  | '.' :: frac =>
    if frac.all Char.isDigit ∧ ¬ (intPart.isEmpty ∧ frac.isEmpty) then
      some ((digitsVal intPart : ℚ) + (digitsVal frac : ℚ) / (10 ^ frac.length))
    else none
  | _ => none

/-- `Number(string)` restricted to finite outcomes: trimmed-empty coerces to
`0`, otherwise a signed decimal literal; `none` stands for `NaN` (or a
non-finite value), which the handler's finiteness check rejects. -/
def jsStringNumber (s : String) : Option ℚ :=
  let t := trimStr s
  if t = "" then some 0
  else
    match t.data with
    | '-' :: rest => (parseUnsignedDecimal rest).map (fun q => -q)
    | '+' :: rest => parseUnsignedDecimal rest
    | cs => parseUnsignedDecimal cs

/-- `Number(searchParams.get(k))`: an absent parameter is `null`, and
`Number(null) = 0`. -/
def jsParamNumber (p : Option String) : Option ℚ :=
  match p with
  | none => some 0
  | some s => jsStringNumber s

/-- The parameter validation of the handler: all three of `lat`, `lng`, `km`
must coerce to finite numbers. -/
def parseRequestParams (latP lngP kmP : Option String) : Option (ℚ × ℚ × ℚ) :=
  match jsParamNumber latP, jsParamNumber lngP, jsParamNumber kmP with
  | some lat, some lng, some km => some (lat, lng, km)
  | _, _, _ => none

/-- The `GET` handler over the abstracted routing oracle: validate the query
parameters, then search and respond.  The start coordinates only enter the
candidate geometry, which the oracle absorbs, so the searched target is the
parsed `km`. -/
def handleGET (dist : Coord → Coord → ℚ) (o : ℕ → ℕ → ℚ → CallResult)
    (latP lngP kmP : Option String) : Except ApiError ApiResponse :=
  match parseRequestParams latP lngP kmP with
  | none => Except.error ApiError.invalidParams
  | some plk => searchAndRespond dist plk.2.2 o

/-- Whether a polyline segment survives the 5 m noise floor of the overlap
scan (`segmentMeters < 5` segments are skipped). -/
def segmentKept (dist : Coord → Coord → ℚ) (seg : Coord × Coord) : Bool :=
  !(decide (dist seg.1 seg.2 < 5))

/-- A placeholder step used for out-of-range heap reads in the object-store
model of the simplifier. -/
def defaultRouteStep : RouteStep :=
  { instruction := "", distance_m := 0, duration_s := 0,
    location := none, type := none, modifier := none, name := none }

/-- Read the step object at address `a` in the object store. -/
def readStep (heap : List RouteStep) (a : ℕ) : RouteStep :=
  heap.getD a defaultRouteStep

/-- The object store and the addresses of the steps emitted so far by the
merge pass, in the heap model of `simplifyRouteSteps`.  JavaScript objects
are modelled as cells of `heap`; the input array holds addresses of existing
cells, `merged.push({...step})` allocates a fresh cell at the end of the
store, and the two merge branches write in place to the cell addressed by
the last emitted entry. -/
structure SimplifyHeapState where
  heap : List RouteStep
  out : List ℕ

/-- One iteration of the merge loop in the heap model: the current input
address is read, and either the last emitted cell is updated in place
(duplicate or zig-zag branch) or a fresh copy of the current step is
allocated and its address emitted. -/
def mergeStepHeap (st : SimplifyHeapState) (addr : ℕ) : SimplifyHeapState :=
  let step := readStep st.heap addr
  match st.out.getLast? with
  | none => { heap := st.heap ++ [step], out := st.out ++ [st.heap.length] }
  | some lastAddr =>
    let lastMerged := readStep st.heap lastAddr
    if sameMergeKey lastMerged step then
      { heap := st.heap.set lastAddr (duplicateMerge lastMerged step), out := st.out }
    else if isOppositeZigZag lastMerged step then
      { heap := st.heap.set lastAddr (zigZagMerge lastMerged step), out := st.out }
    else { heap := st.heap ++ [step], out := st.out ++ [st.heap.length] }

/-- `simplifyRouteSteps` in the heap model: the input is a list of addresses
into the object store; the result is the final store together with the
addresses of the emitted steps (the input itself on the ≤ 2 early return). -/
def simplifyRouteStepsHeap (heap : List RouteStep) (input : List ℕ) : SimplifyHeapState :=
  if input.length ≤ 2 then { heap := heap, out := input }
  else
    let lastIdx := input.length - 1
    let filtered :=
      ((input.enum).filter (fun p => keepStep lastIdx p.1 (readStep heap p.2))).map Prod.snd
    filtered.foldl mergeStepHeap { heap := heap, out := [] }

/-- Concrete distance metric used as witness input: a scaled taxicab metric
(any metric works; the theorems take the metric as a parameter). -/
def wManhattanDist : Coord → Coord → ℚ :=
  fun a b => 100000 * (|a.1 - b.1| + |a.2 - b.2|)

/-- Concrete degenerate distance metric used as witness input. -/
def wZeroDist : Coord → Coord → ℚ := fun _ _ => 0

/-- Concrete routing oracle used as witness input: every call fails. -/
def wErrOracle : ℕ → ℕ → ℚ → CallResult := fun _ _ _ => Except.error ()

/-- Concrete witness step: an unnamed 40 m left turn. -/
def stepTurnLeftGeneric : RouteStep :=
  { instruction := "Turn left.", distance_m := 40, duration_s := 10,
    location := none, type := some "turn", modifier := some "left", name := none }

/-- Concrete witness step: a 30 m right turn on a generic path name. -/
def stepTurnRightGeneric : RouteStep :=
  { instruction := "Turn right.", distance_m := 30, duration_s := 5,
    location := none, type := some "turn", modifier := some "right", name := some "path" }

/-- Concrete witness step: a named 25 m turn. -/
def stepNamedTurn25 : RouteStep :=
  { instruction := "Turn left onto Main Street.", distance_m := 25, duration_s := 20,
    location := none, type := some "turn", modifier := some "left", name := some "Main Street" }

/-- Concrete witness step: an unnamed 20 m turn. -/
def stepUnnamedTurn20 : RouteStep :=
  { instruction := "Turn right.", distance_m := 20, duration_s := 15,
    location := none, type := some "turn", modifier := some "right", name := none }

/-- Concrete provider step used against the per-step pace claim: 1000 m with
a 100 s provider duration estimate. -/
def c1ProviderStep : MapboxStep :=
  { name := none, distance := some 1000, duration := some 100, maneuver := none }

/-- Concrete winning route holding `c1ProviderStep` as its only step. -/
def c1Route : MapboxRoute :=
  { distance := 1000, coordinates := [], legs := some [{ steps := some [c1ProviderStep] }] }

/-- Concrete routed result 12 km long (outside tolerance of a 10 km target). -/
def c3LongRoute : MapboxRoute :=
  { distance := 12000, coordinates := [], legs := none }

/-- Concrete object store used as witness input for the heap model. -/
def c9Heap : List RouteStep :=
  [stepNamedTurn25, stepTurnLeftGeneric, stepTurnRightGeneric]

/-- Helper: the last entry of a list is a member of it. -/
theorem getLast?_mem_of_eq_some {α : Type} {l : List α} {a : α}
    (h : l.getLast? = some a) : a ∈ l := by
  induction l with
  | nil => simp [List.getLast?] at h
  | cons x xs ih =>
    cases hxs : xs with
    | nil =>
      rw [hxs] at h
      simp [List.getLast?] at h
      simp [h]
    | cons y ys =>
      rw [hxs] at h ih
      rw [List.getLast?_cons_cons] at h
      exact List.mem_cons_of_mem x (ih h)

/-- C8: `simplifyRouteSteps` returns any input of length at most 2
unchanged (in particular it is idempotent on such inputs). -/
theorem C8_simplify_short_input_identity (steps : List RouteStep)
    (h : steps.length ≤ 2) : simplifyRouteSteps steps = steps := by
  unfold simplifyRouteSteps
  rw [if_pos h]

/-- Witness for C8 at a concrete two-step input. -/
theorem C8_simplify_short_input_identity_witness :
    ([stepNamedTurn25, stepUnnamedTurn20] : List RouteStep).length ≤ 2 ∧
      simplifyRouteSteps [stepNamedTurn25, stepUnnamedTurn20] =
        [stepNamedTurn25, stepUnnamedTurn20] :=
  ⟨by decide, C8_simplify_short_input_identity _ (by decide)⟩

/-- C6: the filter stage always keeps the first and last step; among
interior steps it keeps every `turn` maneuver with a specific name and
distance at least 20 m, and drops every `turn` maneuver without a specific
name whose distance is under 45 m. -/
theorem C6_filter_stage_turns :
    (∀ lastIdx step, keepStep lastIdx 0 step = true) ∧
    (∀ lastIdx step, keepStep lastIdx lastIdx step = true) ∧
    (∀ lastIdx idx step, idx ≠ 0 → idx ≠ lastIdx →
      step.type = some "turn" →
      (optTruthy step.name && !(isGenericPathName step.name)) = true →
      20 ≤ step.distance_m → keepStep lastIdx idx step = true) ∧
    (∀ lastIdx idx step, idx ≠ 0 → idx ≠ lastIdx →
      step.type = some "turn" →
      (optTruthy step.name && !(isGenericPathName step.name)) = false →
      step.distance_m < 45 → keepStep lastIdx idx step = false) := by
  refine ⟨?_, ?_, ?_, ?_⟩
  · intro lastIdx step
    simp [keepStep]
  · intro lastIdx step
    simp [keepStep]
  · intro lastIdx idx step h0 hl ht hname hd
    have hcore : isCoreManeuverType (some "turn") = true := by decide
    have h8 : decide (step.distance_m < 8) = false := by
      simp only [decide_eq_false_iff_not, not_lt]
      linarith
    have h20 : decide (step.distance_m ≥ 20) = true := decide_eq_true hd
    simp [keepStep, h0, hl, ht, hcore, h8, h20, hname]
  · intro lastIdx idx step h0 hl ht hname hd
    have hcore : isCoreManeuverType (some "turn") = true := by decide
    have h45 : decide (step.distance_m < 45) = true := decide_eq_true hd
    simp only [keepStep, hcore, hname, ht, h45]
    by_cases h8 : step.distance_m < 8
    · simp [h0, hl, decide_eq_true h8]
    · have h8f : decide (step.distance_m < 8) = false := by
        simp [decide_eq_false_iff_not, h8]
      by_cases hg : (optTruthy step.name && isGenericPathName step.name) = true
      · have h140 : decide (step.distance_m < 140) = true := by
          apply decide_eq_true; linarith
        simp [h0, hl, h8f, hg, h140, hcore]
      · simp only [Bool.not_eq_true] at hg
        simp [h0, hl, h8f, hg, hcore]

/-- Witness for C6: a named 25 m interior turn is kept, an unnamed 20 m
interior turn is dropped, and the first/last slots are always kept. -/
theorem C6_filter_stage_turns_witness :
    keepStep 4 0 stepUnnamedTurn20 = true ∧
    keepStep 4 4 stepUnnamedTurn20 = true ∧
    keepStep 4 2 stepNamedTurn25 = true ∧
    keepStep 4 2 stepUnnamedTurn20 = false :=
  ⟨C6_filter_stage_turns.1 4 stepUnnamedTurn20,
   C6_filter_stage_turns.2.1 4 stepUnnamedTurn20,
   C6_filter_stage_turns.2.2.1 4 2 stepNamedTurn25 (by decide) (by decide) rfl
     (by decide) (by decide),
   C6_filter_stage_turns.2.2.2 4 2 stepUnnamedTurn20 (by decide) (by decide) rfl
     (by decide) (by decide)⟩

/-- C5: in the merge pass, when the previous emitted step and the current
step are both `turn` maneuvers whose modifiers carry differing left/right
directions, both distances are at most 70 m, and both names are generic or
absent, the current step is folded into the previous one: distance and
duration summed, instruction replaced by "Continue straight.", and type,
modifier and name cleared. -/
theorem C5_zigzag_merge (merged : List RouteStep) (p s : RouteStep)
    (hlast : merged.getLast? = some p)
    (hpt : p.type = some "turn") (hst : s.type = some "turn")
    (hdir1 : (directionOf p.modifier).isSome = true)
    (hdir2 : (directionOf s.modifier).isSome = true)
    (hdiff : directionOf p.modifier ≠ directionOf s.modifier)
    (hpd : p.distance_m ≤ 70) (hsd : s.distance_m ≤ 70)
    (hpn : isGenericPathName p.name = true)
    (hsn : isGenericPathName s.name = true) :
    mergeStep merged s =
      merged.dropLast ++
        [{ p with
            distance_m := p.distance_m + s.distance_m,
            duration_s := p.duration_s + s.duration_s,
            instruction := "Continue straight.",
            type := none, modifier := none, name := none }] := by
  have hmodne : p.modifier ≠ s.modifier := by
    intro he
    exact hdiff (by rw [he])
  have hsame : sameMergeKey p s = false := by
    unfold sameMergeKey
    have : decide (p.modifier = s.modifier) = false := by
      simp [hmodne]
    simp [this]
  have hzig : isOppositeZigZag p s = true := by
    unfold isOppositeZigZag
    simp [hpt, hst, hdir1, hdir2, hdiff, hpd, hsd, hpn, hsn]
  unfold mergeStep
  rw [hlast]
  simp only [hsame, hzig, Bool.false_eq_true, if_false, if_true]
  rfl

/-- Witness for C5: adjacent unnamed "turn left" (40 m) then generic-path
"turn right" (30 m) merge into a single cleared "Continue straight." step
of 70 m with summed duration. -/
theorem C5_zigzag_merge_witness :
    mergeStep [stepTurnLeftGeneric] stepTurnRightGeneric =
      [{ instruction := "Continue straight.", distance_m := 70, duration_s := 15,
         location := none, type := none, modifier := none, name := none }] :=
  (C5_zigzag_merge [stepTurnLeftGeneric] stepTurnLeftGeneric stepTurnRightGeneric
    rfl rfl rfl (by decide) (by decide) (by decide) (by decide) (by decide)
    (by decide) (by decide)).trans
    (by norm_num [stepTurnLeftGeneric, stepTurnRightGeneric])

/-- Helper: the two-counter loop of the smoothness penalty counts exactly
the short-turn and turn-like steps. -/
theorem smoothnessCounts_foldl (steps : List MapboxStep) (a b : ℕ) :
    steps.foldl
      (fun acc step =>
        if !stepIsTurnLike step then acc
        else (if decide (step.distance.getD 0 < 45) then acc.1 + 1 else acc.1, acc.2 + 1))
      (a, b) =
    (a + steps.countP stepIsShortTurn, b + steps.countP stepIsTurnLike) := by
  induction steps generalizing a b with
  | nil => simp
  | cons s l ih =>
    simp only [List.foldl_cons, List.countP_cons]
    by_cases ht : stepIsTurnLike s = true
    · by_cases hd : s.distance.getD 0 < 45
      · have hshort : stepIsShortTurn s = true := by
          unfold stepIsShortTurn
          simp [ht, hd]
        simp only [ht, hd, decide_True, Bool.not_true, Bool.false_eq_true, if_false, if_true,
          hshort]
        rw [ih]
        simp only [Prod.mk.injEq]
        omega
      · have hshort : stepIsShortTurn s = false := by
          unfold stepIsShortTurn
          simp [hd]
        simp only [ht, Bool.not_true, Bool.false_eq_true, if_false, hshort]
        rw [if_neg (by simpa using hd)]
        rw [ih]
        simp only [Prod.mk.injEq, if_true, if_false]
        omega
    · have ht' : stepIsTurnLike s = false := by simpa using ht
      have hshort : stepIsShortTurn s = false := by
        unfold stepIsShortTurn
        simp [ht']
      simp only [ht', Bool.not_false, if_true, hshort]
      rw [ih]
      simp

/-- C7: the smoothness penalty equals
`shortTurnCount * 0.12 + totalTurnCount * 0.015`, where the total count is
over steps whose maneuver type contains "turn" or equals "fork" or
"roundabout", and the short count is over those with distance under 45 m. -/
theorem C7_smoothness_penalty_formula (route : MapboxRoute) :
    getRouteSmoothnessPenaltyKm route =
      ((flattenProviderSteps route).countP stepIsShortTurn : ℚ) * (12 / 100) +
      ((flattenProviderSteps route).countP stepIsTurnLike : ℚ) * (15 / 1000) := by
  unfold getRouteSmoothnessPenaltyKm smoothnessCounts
  rw [smoothnessCounts_foldl]
  simp

/-- C1 counterexample: on a concrete winning route whose single provider
step reports 1000 m in 100 s, the returned FinalStep keeps the provider's
100 s duration, which differs from the 360 s the fixed pace would give, so
per-step durations are not pace-derived. -/
theorem C1_per_step_pace_counterexample :
    ∃ fs, fs ∈ (buildResponse c1Route).steps ∧
      fs.duration_s ≠ metersToKm fs.distance_m * RUN_PACE_MIN_PER_KM * 60 := by
  refine ⟨{ instruction := "Continue.", distance_m := 1000, duration_s := 100,
            location := none, type := none, modifier := none, name := none }, ?_,
    by norm_num [metersToKm, RUN_PACE_MIN_PER_KM]⟩
  have hsteps : (buildResponse c1Route).steps =
      [{ instruction := "Continue.", distance_m := 1000, duration_s := 100,
         location := none, type := none, modifier := none, name := none }] := by decide
  rw [hsteps]
  exact List.mem_singleton.mpr rfl

/-- C1 amended: it is the route-level `duration_s` of the response that is
derived from distance times the fixed pace (discarding the provider's route
duration), while each raw step keeps the provider's per-step duration
estimate (defaulted to 0), which the simplifier then merges. -/
theorem C1_response_durations (route : MapboxRoute) :
    (buildResponse route).duration_s =
      metersToKm route.distance * RUN_PACE_MIN_PER_KM * 60 ∧
    (rawStepsOf route).map (fun rs => rs.duration_s) =
      (flattenProviderSteps route).map (fun s => s.duration.getD 0) := by
  constructor
  · rfl
  · unfold rawStepsOf flattenProviderSteps
    rw [List.map_flatMap, List.map_flatMap]
    simp only [List.map_map]
    rfl

/-- C10: a request whose `lat`, `lng` or `km` query parameter is absent (or
an empty string) is not rejected as invalid input: the missing value is
coerced to the finite number 0, the finiteness check passes, and the search
proceeds with that 0 value (assuming, as the claim does, that the remaining
parameters themselves coerce to finite numbers). -/
theorem C10_missing_params_coerce_to_zero
    (dist : Coord → Coord → ℚ) (o : ℕ → ℕ → ℚ → CallResult)
    (latP lngP kmP : Option String) (lat lng km : ℚ)
    (hlat : jsParamNumber latP = some lat)
    (hlng : jsParamNumber lngP = some lng)
    (hkm : jsParamNumber kmP = some km)
    (hany : (latP = none ∨ latP = some "") ∨ (lngP = none ∨ lngP = some "") ∨
            (kmP = none ∨ kmP = some "")) :
    (∀ p : Option String, p = none ∨ p = some "" → jsParamNumber p = some 0) ∧
    ((latP = none ∨ latP = some "") → lat = 0) ∧
    ((lngP = none ∨ lngP = some "") → lng = 0) ∧
    ((kmP = none ∨ kmP = some "") → km = 0) ∧
    parseRequestParams latP lngP kmP = some (lat, lng, km) ∧
    handleGET dist o latP lngP kmP = searchAndRespond dist km o := by
  have hzero : ∀ p : Option String, p = none ∨ p = some "" → jsParamNumber p = some 0 := by
    intro p hp
    rcases hp with hp | hp <;> rw [hp] <;> rfl
  have hparse : parseRequestParams latP lngP kmP = some (lat, lng, km) := by
    unfold parseRequestParams
    rw [hlat, hlng, hkm]
  refine ⟨hzero, ?_, ?_, ?_, hparse, ?_⟩
  · intro hp
    have := hzero latP hp
    rw [this] at hlat
    exact (Option.some_inj.mp hlat).symm
  · intro hp
    have := hzero lngP hp
    rw [this] at hlng
    exact (Option.some_inj.mp hlng).symm
  · intro hp
    have := hzero kmP hp
    rw [this] at hkm
    exact (Option.some_inj.mp hkm).symm
  · unfold handleGET
    rw [hparse]

/-- Witness for C10: `lat` absent, `lng = "2"`, `km = "5"` — the handler
does not reject the request and searches with the parsed target. -/
theorem C10_missing_params_coerce_to_zero_witness :
    parseRequestParams none (some "2") (some "5") = some (0, 2, 5) ∧
    handleGET wZeroDist wErrOracle none (some "2") (some "5") =
      searchAndRespond wZeroDist 5 wErrOracle :=
  ⟨(C10_missing_params_coerce_to_zero wZeroDist wErrOracle none (some "2") (some "5")
      0 2 5 rfl rfl rfl (Or.inl (Or.inl rfl))).2.2.2.2.1,
   (C10_missing_params_coerce_to_zero wZeroDist wErrOracle none (some "2") (some "5")
      0 2 5 rfl rfl rfl (Or.inl (Or.inl rfl))).2.2.2.2.2⟩

/-- Helper: the seen-key set of the overlap scan only grows. -/
theorem overlap_seen_mono (dist : Coord → Coord → ℚ) (l : List (Coord × Coord))
    (st : OverlapState) (k : Coord × Coord) (hk : k ∈ st.seen) :
    k ∈ (l.foldl (overlapScanStep dist) st).seen := by
  induction l generalizing st with
  | nil => exact hk
  | cons p t ih =>
    rw [List.foldl_cons]
    apply ih
    unfold overlapScanStep
    by_cases h : dist p.1 p.2 < 5
    · rw [if_pos h]; exact hk
    · rw [if_neg h]
      by_cases hm : segmentKey p.1 p.2 ∈ st.seen
      · rw [if_pos hm]; exact hk
      · rw [if_neg hm]
        exact List.mem_append_left _ hk

/-- Helper: after the scan passes a kept segment, its key is in the set. -/
theorem overlap_key_recorded (dist : Coord → Coord → ℚ) (l : List (Coord × Coord))
    (st : OverlapState) (p : Coord × Coord) (hp : p ∈ l) (hk : ¬ dist p.1 p.2 < 5) :
    segmentKey p.1 p.2 ∈ (l.foldl (overlapScanStep dist) st).seen := by
  induction l generalizing st with
  | nil => cases hp
  | cons q t ih =>
    rw [List.foldl_cons]
    rcases List.mem_cons.mp hp with hpq | hp'
    · subst hpq
      apply overlap_seen_mono
      unfold overlapScanStep
      rw [if_neg hk]
      by_cases hm : segmentKey p.1 p.2 ∈ st.seen
      · rw [if_pos hm]; exact hm
      · rw [if_neg hm]
        exact List.mem_append_right _ (List.mem_singleton.mpr rfl)
    · exact ih _ hp'

/-- Helper: the overlap accumulator of the scan never decreases. -/
theorem overlap_meters_mono (dist : Coord → Coord → ℚ) (l : List (Coord × Coord))
    (st : OverlapState) :
    st.overlapMeters ≤ (l.foldl (overlapScanStep dist) st).overlapMeters := by
  induction l generalizing st with
  | nil => exact le_refl _
  | cons q t ih =>
    rw [List.foldl_cons]
    refine le_trans ?_ (ih _)
    unfold overlapScanStep
    by_cases h : dist q.1 q.2 < 5
    · rw [if_pos h]
    · rw [if_neg h]
      have h5 : (5 : ℚ) ≤ dist q.1 q.2 := not_lt.mp h
      by_cases hm : segmentKey q.1 q.2 ∈ st.seen
      · rw [if_pos hm]
        show st.overlapMeters ≤ st.overlapMeters + dist q.1 q.2
        linarith
      · rw [if_neg hm]

/-- Helper: the overlap accumulator stays nonnegative and bounded by the
total accumulator. -/
theorem overlap_le_total (dist : Coord → Coord → ℚ) (l : List (Coord × Coord))
    (st : OverlapState) (h0 : 0 ≤ st.overlapMeters)
    (h1 : st.overlapMeters ≤ st.totalMeters) :
    0 ≤ (l.foldl (overlapScanStep dist) st).overlapMeters ∧
      (l.foldl (overlapScanStep dist) st).overlapMeters ≤
        (l.foldl (overlapScanStep dist) st).totalMeters := by
  induction l generalizing st with
  | nil => exact ⟨h0, h1⟩
  | cons q t ih =>
    rw [List.foldl_cons]
    unfold overlapScanStep
    by_cases h : dist q.1 q.2 < 5
    · rw [if_pos h]
      exact ih st h0 h1
    · rw [if_neg h]
      have h5 : (5 : ℚ) ≤ dist q.1 q.2 := not_lt.mp h
      by_cases hm : segmentKey q.1 q.2 ∈ st.seen
      · rw [if_pos hm]
        exact ih _ (by simp only; linarith) (by simp only; linarith)
      · rw [if_neg hm]
        exact ih _ (by simp only; linarith) (by simp only; linarith)

/-- Helper: with no duplicate key among the kept segments still to be
scanned (and none of them already seen), the overlap accumulator is never
touched. -/
theorem overlap_zero_of_nodup (dist : Coord → Coord → ℚ) (l : List (Coord × Coord))
    (st : OverlapState)
    (hnd : ((l.filter (segmentKept dist)).map (fun seg => segmentKey seg.1 seg.2)).Nodup)
    (hov : st.overlapMeters = 0)
    (hdisj : ∀ k ∈ st.seen,
      k ∉ (l.filter (segmentKept dist)).map (fun seg => segmentKey seg.1 seg.2)) :
    (l.foldl (overlapScanStep dist) st).overlapMeters = 0 := by
  induction l generalizing st with
  | nil => exact hov
  | cons q t ih =>
    rw [List.foldl_cons]
    by_cases h : dist q.1 q.2 < 5
    · have hkept : segmentKept dist q = false := by
        unfold segmentKept
        simp [h]
      rw [List.filter_cons_of_neg (by simp [hkept])] at hnd hdisj
      have hstep : overlapScanStep dist st q = st := by
        unfold overlapScanStep
        rw [if_pos h]
      rw [hstep]
      exact ih st hnd hov hdisj
    · have hkept : segmentKept dist q = true := by
        unfold segmentKept
        simp [h]
      rw [List.filter_cons_of_pos (by simp [hkept])] at hnd hdisj
      rw [List.map_cons] at hnd hdisj
      have hnotseen : segmentKey q.1 q.2 ∉ st.seen := by
        intro hmem
        exact hdisj _ hmem (List.mem_cons_self _ _)
      have hstep : overlapScanStep dist st q =
          { st with totalMeters := st.totalMeters + dist q.1 q.2,
                    seen := st.seen ++ [segmentKey q.1 q.2] } := by
        unfold overlapScanStep
        rw [if_neg h, if_neg hnotseen]
      rw [hstep]
      rcases List.nodup_cons.mp hnd with ⟨hqnot, hnd'⟩
      refine ih _ hnd' hov ?_
      intro k hkmem
      rcases List.mem_append.mp hkmem with hkl | hkr
      · intro hcontra
        exact hdisj k hkl (List.mem_cons_of_mem _ hcontra)
      · rw [List.mem_singleton.mp hkr]
        exact hqnot

/-- Helper: the scan step on a kept segment whose key was already seen adds
the segment length to both accumulators. -/
theorem overlapScanStep_seen (dist : Coord → Coord → ℚ) (st : OverlapState)
    (seg : Coord × Coord) (h5 : ¬ dist seg.1 seg.2 < 5)
    (hmem : segmentKey seg.1 seg.2 ∈ st.seen) :
    overlapScanStep dist st seg =
      { st with totalMeters := st.totalMeters + dist seg.1 seg.2,
                overlapMeters := st.overlapMeters + dist seg.1 seg.2 } := by
  show (if dist seg.1 seg.2 < 5 then st
    else if segmentKey seg.1 seg.2 ∈ st.seen then
      { st with totalMeters := st.totalMeters + dist seg.1 seg.2,
                overlapMeters := st.overlapMeters + dist seg.1 seg.2 }
    else
      { st with totalMeters := st.totalMeters + dist seg.1 seg.2,
                seen := st.seen ++ [segmentKey seg.1 seg.2] }) = _
  rw [if_neg h5, if_pos hmem]

/-- C4: the overlap penalty is 0 for a polyline with fewer than 3
coordinates and for one with no repeated segment key among its kept (≥ 5 m)
segments, and strictly positive for a polyline that retraces an earlier
kept segment (in either direction, i.e. with the same orientation-free key). -/
theorem C4_overlap_penalty (dist : Coord → Coord → ℚ) (coords : List Coord) :
    (coords.length < 3 → overlapPenaltyOfCoords dist coords = 0) ∧
    ((((polylineSegments coords).filter (segmentKept dist)).map
        (fun seg => segmentKey seg.1 seg.2)).Nodup →
      overlapPenaltyOfCoords dist coords = 0) ∧
    (∀ (i j : ℕ) (si sj : Coord × Coord), i < j →
      (polylineSegments coords)[i]? = some si →
      (polylineSegments coords)[j]? = some sj →
      5 ≤ dist si.1 si.2 → 5 ≤ dist sj.1 sj.2 →
      segmentKey si.1 si.2 = segmentKey sj.1 sj.2 →
      0 < overlapPenaltyOfCoords dist coords) := by
  refine ⟨?_, ?_, ?_⟩
  · intro h3
    unfold overlapPenaltyOfCoords
    rw [if_pos h3]
  · intro hnd
    have hov : ((polylineSegments coords).foldl (overlapScanStep dist)
        ⟨[], 0, 0⟩).overlapMeters = 0 := by
      apply overlap_zero_of_nodup dist _ _ hnd rfl
      intro k hk
      simp at hk
    unfold overlapPenaltyOfCoords
    by_cases h3 : coords.length < 3
    · rw [if_pos h3]
    · rw [if_neg h3]
      simp only
      split_ifs with ht
      · rfl
      · rw [hov]
        simp
  · intro i j si sj hij hgi hgj hdi hdj hkey
    have hjlen : j < (polylineSegments coords).length := by
      rcases List.getElem?_eq_some.mp hgj with ⟨h, _⟩
      exact h
    have hc3 : ¬ coords.length < 3 := by
      have hz : (coords.zip coords.tail).length =
          min coords.length coords.tail.length := List.length_zip _ _
      have htl : coords.tail.length = coords.length - 1 := List.length_tail _
      unfold polylineSegments at hjlen
      omega
    have hsplit : polylineSegments coords =
        (polylineSegments coords).take j ++
          (sj :: (polylineSegments coords).drop (j + 1)) := by
      rcases List.getElem?_eq_some.mp hgj with ⟨h, hv⟩
      conv_lhs => rw [← List.take_append_drop j (polylineSegments coords)]
      rw [List.drop_eq_getElem_cons h, hv]
    have hsi_mem : si ∈ (polylineSegments coords).take j := by
      have hgi' : ((polylineSegments coords).take j)[i]? = some si := by
        rw [List.getElem?_take_of_lt hij]
        exact hgi
      exact List.getElem?_mem hgi' 
    have hkeyJ : segmentKey sj.1 sj.2 ∈
        (((polylineSegments coords).take j).foldl (overlapScanStep dist)
          ⟨[], 0, 0⟩).seen := by
      rw [← hkey]
      exact overlap_key_recorded dist _ _ si hsi_mem (not_lt.mpr hdi)
    have hinvJ := overlap_le_total dist ((polylineSegments coords).take j)
      ⟨[], 0, 0⟩ (le_refl 0) (le_refl 0)
    have hstep : 0 < (overlapScanStep dist
        (((polylineSegments coords).take j).foldl (overlapScanStep dist) ⟨[], 0, 0⟩)
        sj).overlapMeters := by
      rw [overlapScanStep_seen dist _ sj (not_lt.mpr hdj) hkeyJ]
      simp only
      linarith [hinvJ.1]
    have hfold : (polylineSegments coords).foldl (overlapScanStep dist) ⟨[], 0, 0⟩ =
        ((polylineSegments coords).drop (j + 1)).foldl (overlapScanStep dist)
          (overlapScanStep dist
            (((polylineSegments coords).take j).foldl (overlapScanStep dist) ⟨[], 0, 0⟩) sj) := by
      conv_lhs => rw [hsplit]
      rw [List.foldl_append, List.foldl_cons]
    have hovfin : 0 < ((polylineSegments coords).foldl (overlapScanStep dist)
        ⟨[], 0, 0⟩).overlapMeters := by
      rw [hfold]
      exact lt_of_lt_of_le hstep (overlap_meters_mono dist _ _)
    have hinvfin := overlap_le_total dist (polylineSegments coords)
      ⟨[], 0, 0⟩ (le_refl 0) (le_refl 0)
    have htot : 0 < ((polylineSegments coords).foldl (overlapScanStep dist)
        ⟨[], 0, 0⟩).totalMeters := lt_of_lt_of_le hovfin hinvfin.2
    unfold overlapPenaltyOfCoords
    rw [if_neg hc3]
    simp only
    rw [if_neg (not_le.mpr htot)]
    exact mul_pos (div_pos hovfin htot) (by norm_num)

/-- Helper: the canonical pair ordering is symmetric in its arguments. -/
theorem orderPair_comm (ak bk : Coord) : orderPair ak bk = orderPair bk ak := by
  unfold orderPair
  by_cases c1 : ak.1 < bk.1 ∨ (ak.1 = bk.1 ∧ ak.2 ≤ bk.2)
  · rw [if_pos c1]
    by_cases c2 : bk.1 < ak.1 ∨ (bk.1 = ak.1 ∧ bk.2 ≤ ak.2)
    · rw [if_pos c2]
      have hak : ak = bk := by
        rcases c1 with h | ⟨h, h2⟩ <;> rcases c2 with h' | ⟨h', h2'⟩
        · exact absurd h' (not_lt.mpr (le_of_lt h))
        · exact absurd h' (ne_of_gt h)
        · exact absurd h' (not_lt.mpr (le_of_eq h))
        · exact Prod.ext h (le_antisymm h2 h2')
      rw [hak]
    · rw [if_neg c2]
  · rw [if_neg c1]
    by_cases c2 : bk.1 < ak.1 ∨ (bk.1 = ak.1 ∧ bk.2 ≤ ak.2)
    · rw [if_pos c2]
    · exfalso
      push_neg at c1 c2
      have h1 : ak.1 = bk.1 := le_antisymm c2.1 c1.1
      exact lt_asymm (c1.2 h1) (c2.2 h1.symm)

/-- Helper: the segment key is orientation-independent. -/
theorem segmentKey_comm (a b : Coord) : segmentKey a b = segmentKey b a := by
  unfold segmentKey
  exact orderPair_comm _ _

/-- Witness for C4: a 1-point polyline scores 0; a straight 2-segment line
with distinct keys scores 0; an out-and-back retrace scores positively. -/
theorem C4_overlap_penalty_witness :
    overlapPenaltyOfCoords wManhattanDist [(((0:ℚ), (0:ℚ)) : Coord)] = 0 ∧
    overlapPenaltyOfCoords wManhattanDist
      [(((0:ℚ), (0:ℚ)) : Coord), ((1:ℚ), (0:ℚ)), ((2:ℚ), (0:ℚ))] = 0 ∧
    0 < overlapPenaltyOfCoords wManhattanDist
      [(((0:ℚ), (0:ℚ)) : Coord), ((1:ℚ), (0:ℚ)), ((0:ℚ), (0:ℚ))] := by
  refine ⟨(C4_overlap_penalty wManhattanDist _).1 (by norm_num), ?_, ?_⟩
  · apply (C4_overlap_penalty wManhattanDist
      [(((0:ℚ), (0:ℚ)) : Coord), ((1:ℚ), (0:ℚ)), ((2:ℚ), (0:ℚ))]).2.1
    norm_num [polylineSegments, segmentKept, wManhattanDist, segmentKey, orderPair,
      snapCoord, segPrecision, List.filter, Prod.ext_iff]
    intro h
    exact absurd h (by decide)
  · exact (C4_overlap_penalty wManhattanDist
      [(((0:ℚ), (0:ℚ)) : Coord), ((1:ℚ), (0:ℚ)), ((0:ℚ), (0:ℚ))]).2.2 0 1
      ((((0:ℚ), (0:ℚ)), ((1:ℚ), (0:ℚ)))) ((((1:ℚ), (0:ℚ)), ((0:ℚ), (0:ℚ))))
      (by norm_num) rfl rfl (by norm_num [wManhattanDist])
      (by norm_num [wManhattanDist]) (segmentKey_comm _ _)

/-- Helper: one trial iteration, spelled out as a pair. -/
theorem trialFoldStep_eq (dist : Coord → Coord → ℚ) (targetKm : ℚ)
    (o : ℕ → ℚ → CallResult) (p : TrialState × SearchBest) (s : ℕ) :
    trialFoldStep dist targetKm o p s =
      (ctrlStep targetKm p.1 (o s p.1.leg),
       bestStep dist targetKm p.1 p.2 (o s p.1.leg)) := rfl

/-- Helper: once a usable route has been observed, the capture flag stays set. -/
theorem captured_latch (targetKm : ℚ) (o : ℕ → ℚ → CallResult) (l : List ℕ)
    (st : TrialState) :
    (l.foldl (capturedFoldStep targetKm o) (st, true)).2 = true := by
  induction l generalizing st with
  | nil => rfl
  | cons s t ih =>
    rw [List.foldl_cons]
    have hstep : capturedFoldStep targetKm o (st, true) s =
        (ctrlStep targetKm st (o s st.leg), true) := by
      unfold capturedFoldStep
      cases hdone : st.done with
      | true => simp [hdone]
      | false =>
        simp only [hdone, Bool.false_eq_true, if_false]
        cases o s st.leg with
        | error e => rfl
        | ok r =>
          cases r with
          | none => rfl
          | some route => rfl
    rw [hstep]
    exact ih _

/-- Helper: the best slot, once filled, never empties. -/
theorem trialFold_best_isSome (dist : Coord → Coord → ℚ) (targetKm : ℚ)
    (o : ℕ → ℚ → CallResult) (l : List ℕ) (st : TrialState) (acc : SearchBest)
    (h : acc.best.isSome = true) :
    ((l.foldl (trialFoldStep dist targetKm o) (st, acc)).2).best.isSome = true := by
  induction l generalizing st acc with
  | nil => exact h
  | cons s t ih =>
    rw [List.foldl_cons, trialFoldStep_eq]
    apply ih
    unfold bestStep
    cases hdone : st.done with
    | true => simp [h]
    | false =>
      simp only [Bool.false_eq_true, if_false]
      cases o s st.leg with
      | error e => exact h
      | ok r =>
        cases r with
        | none => exact h
        | some route =>
          by_cases hlt : scoreLt (scoreRoute dist route targetKm).score acc.bestScore = true
          · simp [hlt]
          · simp only [Bool.not_eq_true] at hlt
            simp [hlt, h]

/-- Helper: the best slot and its score are empty or filled together. -/
theorem bestStep_sync (dist : Coord → Coord → ℚ) (targetKm : ℚ) (st : TrialState)
    (acc : SearchBest) (res : CallResult)
    (h : acc.best = none → acc.bestScore = none) :
    (bestStep dist targetKm st acc res).best = none →
      (bestStep dist targetKm st acc res).bestScore = none := by
  unfold bestStep
  cases hdone : st.done with
  | true => simpa using h
  | false =>
    simp only [Bool.false_eq_true, if_false]
    cases res with
    | error e => exact h
    | ok r =>
      cases r with
      | none => exact h
      | some route =>
        by_cases hlt : scoreLt (scoreRoute dist route targetKm).score acc.bestScore = true
        · simp [hlt]
        · simp only [Bool.not_eq_true] at hlt
          simp only [hlt, Bool.false_eq_true, if_false]
          exact h

/-- Helper: one trial iteration on explicit components. -/
theorem trialFoldStep_pair (dist : Coord → Coord → ℚ) (targetKm : ℚ)
    (o : ℕ → ℚ → CallResult) (st : TrialState) (acc : SearchBest) (s : ℕ) :
    trialFoldStep dist targetKm o (st, acc) s =
      (ctrlStep targetKm st (o s st.leg),
       bestStep dist targetKm st acc (o s st.leg)) := rfl

/-- Helper: one capture-observation iteration on explicit components. -/
theorem capturedFoldStep_pair (targetKm : ℚ) (o : ℕ → ℚ → CallResult)
    (st : TrialState) (c : Bool) (s : ℕ) :
    capturedFoldStep targetKm o (st, c) s =
      (ctrlStep targetKm st (o s st.leg),
       if st.done then c else
         match o s st.leg with
         | Except.ok (some _) => true
         | _ => c) := rfl

/-- Helper: the trial fold ends with no best route exactly when it started
with none and no live iteration received a usable route. -/
theorem trialFold_none_iff (dist : Coord → Coord → ℚ) (targetKm : ℚ)
    (o : ℕ → ℚ → CallResult) (l : List ℕ) (st : TrialState) (acc : SearchBest)
    (hsync : acc.best = none → acc.bestScore = none) :
    ((l.foldl (trialFoldStep dist targetKm o) (st, acc)).2).best = none ↔
      (acc.best = none ∧
        (l.foldl (capturedFoldStep targetKm o) (st, false)).2 = false) := by
  induction l generalizing st acc with
  | nil => simp
  | cons s t ih =>
    rw [List.foldl_cons, List.foldl_cons, trialFoldStep_pair, capturedFoldStep_pair]
    have key := ih (ctrlStep targetKm st (o s st.leg))
      (bestStep dist targetKm st acc (o s st.leg))
      (bestStep_sync dist targetKm st acc (o s st.leg) hsync)
    cases hdone : st.done with
    | true =>
      have hb : bestStep dist targetKm st acc (o s st.leg) = acc := by
        unfold bestStep
        simp [hdone]
      rw [hb]
      rw [hb] at key
      simpa using key
    | false =>
      cases hres : o s st.leg with
      | error e =>
        rw [hres] at key
        have hb : bestStep dist targetKm st acc (Except.error e) = acc := by
          unfold bestStep
          simp [hdone]
        rw [hb]
        rw [hb] at key
        simpa using key
      | ok r =>
        cases r with
        | none =>
          rw [hres] at key
          have hb : bestStep dist targetKm st acc (Except.ok none) = acc := by
            unfold bestStep
            simp [hdone]
          rw [hb]
          rw [hb] at key
          simpa using key
        | some route =>
          rw [hres] at key
          have hsome : (bestStep dist targetKm st acc (Except.ok (some route))).best.isSome
              = true := by
            unfold bestStep
            simp only [hdone, Bool.false_eq_true, if_false]
            cases hbest : acc.best with
            | none =>
              have hscore := hsync hbest
              simp [scoreLt, hscore]
            | some b =>
              by_cases hlt : scoreLt (scoreRoute dist route targetKm).score acc.bestScore
                  = true
              · simp [hlt]
              · simp only [Bool.not_eq_true] at hlt
                simp [hlt, hbest]
          have hlatch := captured_latch targetKm o t
            (ctrlStep targetKm st (Except.ok (some route)))
          simp only [Bool.false_eq_true, if_false]
          constructor
          · intro hnone
            exfalso
            rcases key.mp hnone with ⟨hbnone, _⟩
            rw [hbnone] at hsome
            simp at hsome
          · intro hconj
            exfalso
            rw [hlatch] at hconj
            simp at hconj

/-- Helper: the trial fold preserves best/bestScore synchrony. -/
theorem trialFold_sync (dist : Coord → Coord → ℚ) (targetKm : ℚ)
    (o : ℕ → ℚ → CallResult) (l : List ℕ) (st : TrialState) (acc : SearchBest)
    (hsync : acc.best = none → acc.bestScore = none) :
    ((l.foldl (trialFoldStep dist targetKm o) (st, acc)).2).best = none →
      ((l.foldl (trialFoldStep dist targetKm o) (st, acc)).2).bestScore = none := by
  induction l generalizing st acc with
  | nil => exact hsync
  | cons s t ih =>
    rw [List.foldl_cons, trialFoldStep_eq]
    exact ih _ _ (bestStep_sync dist targetKm st acc (o s st.leg) hsync)

/-- Helper: across a list of trials, the final best is empty exactly when it
started empty and no trial captured a route. -/
theorem searchFold_none_iff (dist : Coord → Coord → ℚ) (targetKm : ℚ)
    (o : ℕ → ℕ → ℚ → CallResult) (l : List ℕ) (acc : SearchBest)
    (hsync : acc.best = none → acc.bestScore = none) :
    (l.foldl (fun acc2 tr => runTrial dist targetKm (o tr) acc2) acc).best = none ↔
      (acc.best = none ∧ ∀ tr ∈ l, trialCaptured targetKm (o tr) = false) := by
  induction l generalizing acc with
  | nil => simp
  | cons tr ts ih =>
    rw [List.foldl_cons]
    have hsync' : (runTrial dist targetKm (o tr) acc).best = none →
        (runTrial dist targetKm (o tr) acc).bestScore = none :=
      trialFold_sync dist targetKm (o tr) _ _ _ hsync
    rw [ih _ hsync']
    have h1 : (runTrial dist targetKm (o tr) acc).best = none ↔
        acc.best = none ∧ trialCaptured targetKm (o tr) = false :=
      trialFold_none_iff dist targetKm (o tr) _ _ _ hsync
    rw [h1]
    simp only [List.forall_mem_cons]
    tauto

/-- C2: a failed routing call abandons only the current trial's inner loop
(it marks the trial's control state done, leaving the bracket and the best
slot untouched, and later trials still run), and the request fails with the
no-route error if and only if no trial across the whole search ever
captured a usable routed result on a live call. -/
theorem C2_error_recovery (dist : Coord → Coord → ℚ) (targetKm : ℚ)
    (o : ℕ → ℕ → ℚ → CallResult) :
    (∀ st e, st.done = false →
      ctrlStep targetKm st (Except.error e) = { st with done := true } ∧
      (∀ acc, bestStep dist targetKm st acc (Except.error e) = acc)) ∧
    (searchAndRespond dist targetKm o = Except.error ApiError.noRoute ↔
      ∀ tr, tr < bearingTries → trialCaptured targetKm (o tr) = false) := by
  constructor
  · intro st e hdone
    constructor
    · unfold ctrlStep
      simp [hdone]
    · intro acc
      unfold bestStep
      simp [hdone]
  · have hrs : runSearch dist targetKm o = none ↔
        ∀ tr ∈ List.range bearingTries, trialCaptured targetKm (o tr) = false := by
      unfold runSearch
      have h := searchFold_none_iff dist targetKm o (List.range bearingTries)
        { best := none, bestScore := none } (fun _ => rfl)
      simpa using h
    constructor
    · intro h tr htr
      cases hsearch : runSearch dist targetKm o with
      | none => exact hrs.mp hsearch tr (List.mem_range.mpr htr)
      | some b =>
        exfalso
        unfold searchAndRespond at h
        rw [hsearch] at h
        simp at h
    · intro h
      have hnone : runSearch dist targetKm o = none :=
        hrs.mpr (fun tr htr => h tr (List.mem_range.mp htr))
      unfold searchAndRespond
      rw [hnone]

/-- Witness for C2: with an always-failing oracle every trial is abandoned
without capturing a route and the handler reports the no-route error; the
error also marks a concrete live trial state done without touching it
otherwise. -/
theorem C2_error_recovery_witness :
    ctrlStep 5 (initTrialState 5) (Except.error ()) =
      { initTrialState 5 with done := true } ∧
    searchAndRespond wZeroDist 5 wErrOracle = Except.error ApiError.noRoute :=
  ⟨((C2_error_recovery wZeroDist 5 wErrOracle).1 (initTrialState 5) () rfl).1,
   ((C2_error_recovery wZeroDist 5 wErrOracle).2).mpr (by decide)⟩

/-- Helper: a trial only consults the oracle at the iterations it folds
over. -/
theorem trialFold_congr (dist : Coord → Coord → ℚ) (targetKm : ℚ)
    (o o' : ℕ → ℚ → CallResult) (l : List ℕ) (p : TrialState × SearchBest)
    (h : ∀ s ∈ l, ∀ leg, o s leg = o' s leg) :
    l.foldl (trialFoldStep dist targetKm o) p =
      l.foldl (trialFoldStep dist targetKm o') p := by
  induction l generalizing p with
  | nil => rfl
  | cons s t ih =>
    rw [List.foldl_cons, List.foldl_cons]
    have hs : trialFoldStep dist targetKm o p s = trialFoldStep dist targetKm o' p s := by
      unfold trialFoldStep
      rw [h s (List.mem_cons_self _ _) p.1.leg]
    rw [hs]
    exact ih _ (fun s2 hs2 leg => h s2 (List.mem_cons_of_mem _ hs2) leg)

/-- C3 counterexample: the bracket does start at `low = 0.12 × target` and
`high = 0.45 × target`, but the first evaluated leg is `0.22 × target`,
which is not the midpoint of that bracket (at target 10 km the first leg is
2.2 km, the midpoint 2.85 km), so the inner search does not evaluate the
midpoint on each iteration. -/
theorem C3_midpoint_counterexample :
    (initTrialState 10).low = (12 / 100 : ℚ) * 10 ∧
    (initTrialState 10).high = (45 / 100 : ℚ) * 10 ∧
    (initTrialState 10).leg ≠ ((initTrialState 10).low + (initTrialState 10).high) / 2 := by
  refine ⟨rfl, rfl, ?_⟩
  norm_num [initTrialState]

/-- C3 amended: each trial's inner search starts the bracket at
`low = 0.12 target`, `high = 0.45 target` with a first evaluated leg of
`0.22 target` (not the bracket midpoint); a finished state is never touched;
an error stops the trial; a response without a route leaves the state
unchanged; a routed distance within the 0.5 km tolerance stops the trial;
otherwise the evaluated leg becomes the new high (when routed exceeds the
target) or the new low (otherwise) and the next leg is the midpoint of the
updated bracket; and the trial consults the oracle on at most the
`tuneSteps = 6` budgeted iterations. -/
theorem C3_bracket_search_amended (targetKm : ℚ) :
    initTrialState targetKm =
      { low := (12 / 100) * targetKm, high := (45 / 100) * targetKm,
        leg := (22 / 100) * targetKm, done := false } ∧
    (∀ st res, st.done = true → ctrlStep targetKm st res = st) ∧
    (∀ st e, st.done = false →
      ctrlStep targetKm st (Except.error e) = { st with done := true }) ∧
    (∀ st, st.done = false → ctrlStep targetKm st (Except.ok none) = st) ∧
    (∀ st r, st.done = false → |metersToKm r.distance - targetKm| ≤ toleranceKm →
      ctrlStep targetKm st (Except.ok (some r)) = { st with done := true }) ∧
    (∀ st r, st.done = false → ¬ (|metersToKm r.distance - targetKm| ≤ toleranceKm) →
      targetKm < metersToKm r.distance →
      ctrlStep targetKm st (Except.ok (some r)) =
        { low := st.low, high := st.leg, leg := (st.low + st.leg) / 2, done := false }) ∧
    (∀ st r, st.done = false → ¬ (|metersToKm r.distance - targetKm| ≤ toleranceKm) →
      ¬ (targetKm < metersToKm r.distance) →
      ctrlStep targetKm st (Except.ok (some r)) =
        { low := st.leg, high := st.high, leg := (st.leg + st.high) / 2, done := false }) ∧
    (∀ (dist : Coord → Coord → ℚ) (o o' : ℕ → ℚ → CallResult) acc,
      (∀ s, s < tuneSteps → ∀ leg, o s leg = o' s leg) →
      runTrial dist targetKm o acc = runTrial dist targetKm o' acc) := by
  refine ⟨rfl, ?_, ?_, ?_, ?_, ?_, ?_, ?_⟩
  · intro st res hdone
    unfold ctrlStep
    simp [hdone]
  · intro st e hdone
    unfold ctrlStep
    simp [hdone]
  · intro st hdone
    unfold ctrlStep
    simp [hdone]
  · intro st r hdone htol
    unfold ctrlStep
    simp [hdone, htol]
  · intro st r hdone htol hgt
    unfold ctrlStep
    simp only [hdone, Bool.false_eq_true, if_false]
    rw [if_neg htol, if_pos (by exact hgt)]
  · intro st r hdone htol hgt
    unfold ctrlStep
    simp only [hdone, Bool.false_eq_true, if_false]
    rw [if_neg htol, if_neg (by exact hgt)]
  · intro dist o o' acc h
    unfold runTrial
    rw [trialFold_congr dist targetKm o o' (List.range tuneSteps) _
      (fun s hs leg => h s (List.mem_range.mp hs) leg)]

/-- Witness for C3: at a 10 km target, a live trial state with the initial
bracket, upon a routed result of 12 km (outside tolerance, above target),
shrinks the bracket downward around the evaluated leg and moves to the new
midpoint. -/
theorem C3_bracket_search_amended_witness :
    ctrlStep 10 { low := 6/5, high := 9/2, leg := 11/5, done := false }
      (Except.ok (some c3LongRoute)) =
      { low := 6/5, high := 11/5, leg := (6/5 + 11/5) / 2, done := false } :=
  (C3_bracket_search_amended 10).2.2.2.2.2.1
    { low := 6/5, high := 9/2, leg := 11/5, done := false } c3LongRoute rfl
    (by norm_num [metersToKm, toleranceKm, c3LongRoute])
    (by norm_num [metersToKm, c3LongRoute])

/-- Helper: the heap merge step with no previous emitted step allocates. -/
theorem mergeStepHeap_none (st : SimplifyHeapState) (addr : ℕ)
    (h : st.out.getLast? = none) :
    mergeStepHeap st addr =
      { heap := st.heap ++ [readStep st.heap addr],
        out := st.out ++ [st.heap.length] } := by
  unfold mergeStepHeap
  rw [h]

/-- Helper: the heap merge step in the duplicate branch writes in place. -/
theorem mergeStepHeap_dup (st : SimplifyHeapState) (addr lastAddr : ℕ)
    (h : st.out.getLast? = some lastAddr)
    (hsame : sameMergeKey (readStep st.heap lastAddr) (readStep st.heap addr) = true) :
    mergeStepHeap st addr =
      { heap := st.heap.set lastAddr
          (duplicateMerge (readStep st.heap lastAddr) (readStep st.heap addr)),
        out := st.out } := by
  unfold mergeStepHeap
  rw [h]
  simp [hsame]

/-- Helper: the heap merge step in the zig-zag branch writes in place. -/
theorem mergeStepHeap_zig (st : SimplifyHeapState) (addr lastAddr : ℕ)
    (h : st.out.getLast? = some lastAddr)
    (hsame : sameMergeKey (readStep st.heap lastAddr) (readStep st.heap addr) = false)
    (hzig : isOppositeZigZag (readStep st.heap lastAddr) (readStep st.heap addr) = true) :
    mergeStepHeap st addr =
      { heap := st.heap.set lastAddr
          (zigZagMerge (readStep st.heap lastAddr) (readStep st.heap addr)),
        out := st.out } := by
  unfold mergeStepHeap
  rw [h]
  simp [hsame, hzig]

/-- Helper: the heap merge step otherwise allocates a fresh copy. -/
theorem mergeStepHeap_push (st : SimplifyHeapState) (addr lastAddr : ℕ)
    (h : st.out.getLast? = some lastAddr)
    (hsame : sameMergeKey (readStep st.heap lastAddr) (readStep st.heap addr) = false)
    (hzig : isOppositeZigZag (readStep st.heap lastAddr) (readStep st.heap addr) = false) :
    mergeStepHeap st addr =
      { heap := st.heap ++ [readStep st.heap addr],
        out := st.out ++ [st.heap.length] } := by
  unfold mergeStepHeap
  rw [h]
  simp [hsame, hzig]

/-- Helper: the merge loop of the heap model only allocates fresh cells and
writes to cells it allocated, so the original prefix of the store survives
untouched. -/
theorem mergeFoldHeap_frame (l : List ℕ) (st : SimplifyHeapState) (n : ℕ)
    (hlen : n ≤ st.heap.length)
    (hout : ∀ a ∈ st.out, n ≤ a) :
    n ≤ (l.foldl mergeStepHeap st).heap.length ∧
    (∀ k, k < n → (l.foldl mergeStepHeap st).heap[k]? = st.heap[k]?) ∧
    (∀ a ∈ (l.foldl mergeStepHeap st).out, n ≤ a) := by
  induction l generalizing st with
  | nil => exact ⟨hlen, fun k _ => rfl, hout⟩
  | cons addr t ih =>
    rw [List.foldl_cons]
    have hstep : n ≤ (mergeStepHeap st addr).heap.length ∧
        (∀ k, k < n → (mergeStepHeap st addr).heap[k]? = st.heap[k]?) ∧
        (∀ a ∈ (mergeStepHeap st addr).out, n ≤ a) := by
      cases hlast : st.out.getLast? with
      | none =>
        rw [mergeStepHeap_none st addr hlast]
        refine ⟨?_, ?_, ?_⟩
        · simp only [List.length_append, List.length_cons, List.length_nil]
          omega
        · intro k hk
          exact List.getElem?_append_left (by omega)
        · intro a ha
          rcases List.mem_append.mp ha with h1 | h1
          · exact hout a h1
          · rw [List.mem_singleton.mp h1]
            exact hlen
      | some lastAddr =>
        have hlastn : n ≤ lastAddr :=
          hout lastAddr (getLast?_mem_of_eq_some hlast)
        by_cases hsame : sameMergeKey (readStep st.heap lastAddr) (readStep st.heap addr)
            = true
        · rw [mergeStepHeap_dup st addr lastAddr hlast hsame]
          refine ⟨by rw [List.length_set]; exact hlen, ?_, hout⟩
          intro k hk
          exact List.getElem?_set_ne (by omega)
        · have hsame2 : sameMergeKey (readStep st.heap lastAddr) (readStep st.heap addr)
              = false := by simpa using hsame
          by_cases hzig : isOppositeZigZag (readStep st.heap lastAddr)
              (readStep st.heap addr) = true
          · rw [mergeStepHeap_zig st addr lastAddr hlast hsame2 hzig]
            refine ⟨by rw [List.length_set]; exact hlen, ?_, hout⟩
            intro k hk
            exact List.getElem?_set_ne (by omega)
          · have hzig2 : isOppositeZigZag (readStep st.heap lastAddr)
                (readStep st.heap addr) = false := by simpa using hzig
            rw [mergeStepHeap_push st addr lastAddr hlast hsame2 hzig2]
            refine ⟨?_, ?_, ?_⟩
            · simp only [List.length_append, List.length_cons, List.length_nil]
              omega
            · intro k hk
              exact List.getElem?_append_left (by omega)
            · intro a ha
              rcases List.mem_append.mp ha with h1 | h1
              · exact hout a h1
              · rw [List.mem_singleton.mp h1]
                exact hlen
    rcases ih (mergeStepHeap st addr) hstep.1 hstep.2.2 with ⟨ih1, ih2, ih3⟩
    refine ⟨ih1, ?_, ih3⟩
    intro k hk
    rw [ih2 k hk]
    exact hstep.2.1 k hk

/-- C9: the simplifier never mutates the input steps: every cell of the
original object store holds the same step after the call as before (the
merge pass's in-place updates touch only the freshly allocated copies). -/
theorem C9_no_input_mutation (heap : List RouteStep) (input : List ℕ) (i : ℕ)
    (hi : i < heap.length) :
    (simplifyRouteStepsHeap heap input).heap[i]? = heap[i]? := by
  unfold simplifyRouteStepsHeap
  by_cases hshort : input.length ≤ 2
  · rw [if_pos hshort]
  · rw [if_neg hshort]
    have h := mergeFoldHeap_frame
      (((input.enum).filter
        (fun p => keepStep (input.length - 1) p.1 (readStep heap p.2))).map Prod.snd)
      { heap := heap, out := [] } heap.length (le_refl _) (by intro a ha; cases ha)
    exact h.2.1 i hi

/-- Witness for C9 on a concrete three-step store passed through the full
simplifier pipeline. -/
theorem C9_no_input_mutation_witness :
    (simplifyRouteStepsHeap c9Heap [0, 1, 2]).heap[0]? = c9Heap[0]? :=
  C9_no_input_mutation c9Heap [0, 1, 2] 0 (by decide)
